import Mathlib

/-!
Verification of `mcp_cli/async_config.py` (`load_server_config`) and of the
chat slash-command handlers in `mcp_cli/chat/commands/provider.py`
(`cmd_provider`, `cmd_providers`, `cmd_model`), via a shallow embedding.

The embedding mirrors the Python runtime behaviour: JSON values are an
inductive type, the chat context is an association list of Python values,
the external collaborators (`provider_action_async`, the `ModelManager`
registry handle) are parameters of the handler functions, console output is
collected as a list of lines, and every Python exception path becomes an
explicit error value.
-/

namespace McpCli

/-- A parsed JSON value, as produced by Python's `json.load`.  JSON `null`
parses to Python `None`; since `dict.get` also yields `None` for an absent
key, `null` doubles as the embedding of Python `None` on the loader side. -/
inductive JVal where
  | null : JVal
  | bool (b : Bool) : JVal
  | num (n : Int) : JVal
  | str (s : String) : JVal
  | arr (elems : List JVal) : JVal
  | obj (fields : List (String × JVal)) : JVal

/-- First value bound to `k` in an object's field list (Python `dict` lookup;
`json.load` keeps the last duplicate, but the claims never use duplicates). -/
def jlookup : List (String × JVal) → String → Option JVal
  | [], _ => none
  | (k', v) :: rest, k => if k' = k then some v else jlookup rest k

/-- Python truthiness of a `json.load` result (`not server_config`). -/
def jFalsy : JVal → Bool
  | .null => true
  | .bool b => !b
  | .num n => n == 0
  | .str s => s == ""
  | .arr elems => elems.isEmpty
  | .obj fields => fields.isEmpty

/-- Decode a list of JSON values into strings, when all are strings. -/
def decodeStrs : List JVal → Option (List String)
  | [] => some []
  | JVal.str s :: rest =>
      match decodeStrs rest with
      | some ss => some (s :: ss)
      | none => none
  | _ => none

/-- Decode a JSON value into a list of strings, when it is an array of
strings. -/
def decodeStrList : JVal → Option (List String)
  | .arr elems => decodeStrs elems
  | _ => none

/-- Decode object fields into string-to-string pairs, when every value is a
string. -/
def decodeStrPairs : List (String × JVal) → Option (List (String × String))
  | [] => some []
  | (k, JVal.str v) :: rest =>
      match decodeStrPairs rest with
      | some ps => some ((k, v) :: ps)
      | none => none
  | _ => none

/-- Decode the `env` argument: Python `None` (absent key or JSON `null`)
becomes an absent mapping, a string-valued object becomes a mapping. -/
def envDecode : JVal → Option (Option (List (String × String)))
  | .null => some none
  | .obj fields =>
      match decodeStrPairs fields with
      | some ps => some (some ps)
      | none => none
  | _ => none

/-- Modelled from the spec: the external `StdioParameters` record from
chuk-mcp (its source is not under src/); per the spec's data model it is
`{command: string, args: ordered sequence of string, env: optional mapping
from string to string}`, immutable after construction. -/
structure StdioParameters where
  command : String
  args : List String
  env : Option (List (String × String))
deriving DecidableEq, Repr

/-- The ways `load_server_config` can fail, mirroring the Python exceptions
(both the ones it raises itself and the uncaught ones that propagate). -/
inductive LoadError where
  | fileNotFound (msg : String) : LoadError
  | jsonDecode (msg doc : String) (pos : Nat) : LoadError
  | valueError (msg : String) : LoadError
  | keyError (key : String) : LoadError
  | attributeError (attr : String) : LoadError
  | typeError (msg : String) : LoadError
  | validationError : LoadError
deriving DecidableEq, Repr

/-- The message of the `ValueError` raised for an unknown server name. -/
def serverNotFoundMsg (server_name : String) : String :=
  "Server \x27" ++ server_name ++ "\x27 not found in configuration file."

/-- Modelled from the spec: constructing a `StdioParameters` (external
pydantic model, not under src/) validates the field types and fails
otherwise. -/
def mkStdioParameters (command args env : JVal) : Except LoadError StdioParameters :=
  match command, decodeStrList args, envDecode env with
  | JVal.str c, some as, some e => .ok ⟨c, as, e⟩
  | _, _, _ => .error .validationError

/-- What the file system yields for the configuration path: no file, a file
that is not valid JSON (with the decode error's message, document and
position), or a parsed JSON value. -/
inductive ConfigFile where
  | missing : ConfigFile
  | invalidJson (msg doc : String) (pos : Nat) : ConfigFile
  | parsed (config : JVal) : ConfigFile

/-- Embedding of `load_server_config` from `mcp_cli/async_config.py`.
Reads the config file, looks up `mcpServers[server_name]` (with `{}` as the
default for a missing `mcpServers` key), raises `ValueError` when the entry
is absent or falsy, and otherwise builds `StdioParameters` from the entry's
`command`, `args` (default `[]`) and `env` (default `None`) fields.
`FileNotFoundError` and `json.JSONDecodeError` are re-raised with rewrapped
messages; calling `.get` on a non-dict raises `AttributeError`, indexing a
truthy non-dict entry with `"command"` raises `TypeError`, and a dict entry
without `"command"` raises `KeyError` — all three propagate uncaught. -/
def load_server_config (config_path : String) (file : ConfigFile)
    (server_name : String) : Except LoadError StdioParameters :=
  match file with
  | .missing =>
      .error (.fileNotFound ("Configuration file not found: " ++ config_path))
  | .invalidJson msg doc pos =>
      .error (.jsonDecode ("Invalid JSON in configuration file: " ++ msg) doc pos)
  | .parsed config =>
      match config with
      | .obj fields =>
          match (jlookup fields "mcpServers").getD (.obj []) with
          | .obj sfields =>
              if jFalsy ((jlookup sfields server_name).getD .null) then
                .error (.valueError (serverNotFoundMsg server_name))
              else
                match (jlookup sfields server_name).getD .null with
                | .obj ef =>
                    match jlookup ef "command" with
                    | none => .error (.keyError "command")
                    | some cmd =>
                        mkStdioParameters cmd ((jlookup ef "args").getD (.arr []))
                          ((jlookup ef "env").getD .null)
                | _ => .error (.typeError "string indices must be integers")
          | _ => .error (.attributeError "get")
      | _ => .error (.attributeError "get")

/-! ## Chat context model (`mcp_cli/chat/commands/provider.py`) -/

/-- A Python value stored in the mutable chat context dictionary: `None`,
a string, a default-constructed `ModelManager` registry handle, or any
other object (tagged by an identity number). -/
inductive CtxVal where
  | pynone : CtxVal
  | str (s : String) : CtxVal
  | mm : CtxVal
  | obj (id : Nat) : CtxVal
deriving DecidableEq, Repr

/-- The mutable chat context: a string-keyed dictionary, embedded as an
association list without duplicate-key semantics surprises (`ctxSet`
replaces in place). -/
abbrev Ctx := List (String × CtxVal)

/-- Dictionary lookup: first binding of `k`. -/
def ctxFind : Ctx → String → Option CtxVal
  | [], _ => none
  | (k', v) :: rest, k => if k' = k then some v else ctxFind rest k

/-- Python `k in ctx`. -/
def ctxContains (ctx : Ctx) (k : String) : Bool :=
  (ctxFind ctx k).isSome

/-- Python `ctx[k] = v`: replace the binding in place, or append. -/
def ctxSet : Ctx → String → CtxVal → Ctx
  | [], k, v => [(k, v)]
  | (k', v') :: rest, k, v =>
      if k' = k then (k, v) :: rest else (k', v') :: ctxSet rest k v

/-- Python `ctx.get(k)`: the value, or `None` when the key is absent. -/
def pyGet (ctx : Ctx) (k : String) : CtxVal :=
  (ctxFind ctx k).getD .pynone

/-- Python `ctx.get(k, d)`: the value, or `d` only when the key is absent. -/
def pyGetD (ctx : Ctx) (k : String) (d : CtxVal) : CtxVal :=
  (ctxFind ctx k).getD d

/-- Python truthiness of a context value. -/
def truthy : CtxVal → Bool
  | .pynone => false
  | .str s => s ≠ ""
  | .mm => true
  | .obj _ => true

/-- Python `str()` / f-string rendering of a context value. -/
def showVal : CtxVal → String
  | .pynone => "None"
  | .str s => s
  | .mm => "<ModelManager>"
  | .obj n => "<object " ++ toString n ++ ">"

/-- One invocation of the external `provider_action_async` collaborator:
the argument list it received and the context object at call time. -/
structure DelegateCall where
  args : List CtxVal
  ctx : Ctx
deriving DecidableEq, Repr

/-- Outcome of awaiting `provider_action_async`: normal return or a raised
exception (message) — either way the shared context may have been mutated,
so both carry the context as it stands afterwards. -/
inductive DelegateResult where
  | ok (ctx : Ctx) : DelegateResult
  | raised (msg : String) (ctx : Ctx) : DelegateResult
deriving DecidableEq, Repr

/-- The external `provider_action_async` collaborator, as a parameter. -/
abbrev Delegate := List CtxVal → Ctx → DelegateResult

/-- The external `ModelManager().get_available_models` collaborator, as a
parameter: freshly constructed, so independent of the context. -/
abbrev GetModels := CtxVal → Except String (List String)

/-- Result of running one chat command handler: the returned continuation
flag, the context afterwards, the console lines printed, and the delegate
invocations made. -/
structure HandlerResult where
  ret : Bool
  ctx : Ctx
  output : List String
  calls : List DelegateCall
deriving DecidableEq, Repr

/-- The lazy `model_manager` creation shared by `cmd_provider` and
`cmd_providers`: `if "model_manager" not in ctx: ctx["model_manager"] =
ModelManager()`. -/
def ensureMM (ctx : Ctx) : Ctx :=
  if ctxContains ctx "model_manager" then ctx
  else ctxSet ctx "model_manager" .mm

/-- Substring match of `pat` against the start of `s` (character lists). -/
def subAt : List Char → List Char → Bool
  | [], _ => true
  | _ :: _, [] => false
  | a :: as, b :: bs => a == b && subAt as bs

/-- Does `pat` occur anywhere inside `l`? -/
def subSearch (pat : List Char) : List Char → Bool
  | [] => subAt pat []
  | b :: bs => subAt pat (b :: bs) || subSearch pat bs

/-- Python `pat in s` on strings. -/
def strHasSubB (s pat : String) : Bool :=
  subSearch pat.toList s.toList

/-- `console.print` line of `cmd_provider` after a successful switch. -/
def providerChangedLine (np nm : CtxVal) : String :=
  "[green]Chat session now using:[/green] " ++ showVal np ++ "/" ++ showVal nm

/-- The second confirmation line of `cmd_provider`. -/
def providerDimLine : String :=
  "[dim]Future messages will use the new provider.[/dim]"

/-- Error line of `cmd_provider` when the delegate raises. -/
def providerFailLine (msg : String) : String :=
  "[red]Provider command failed:[/red] " ++ msg

/-- Troubleshooting hint block of `cmd_provider`, printed when the
exception text mentions models; the last line reads the context as the
exception left it. -/
def providerHintLines (ctx2 : Ctx) : List String :=
  ["[yellow]Chat troubleshooting:[/yellow]",
   "  • This might be a chuk-llm 0.7 compatibility issue",
   "  • Try: /provider list to see current provider status",
   "  • Current context: provider=" ++ showVal (pyGet ctx2 "provider") ++
     ", model=" ++ showVal (pyGet ctx2 "model")]

/-- Embedding of `cmd_provider`: lazily create `model_manager`, snapshot
`provider`/`model`, forward `parts[1:]` to the delegate, then print the
confirmation pair when either value changed and a provider is set; a raised
exception becomes a red error line plus, when its text mentions
`available_models` or `models`, the hint block.  Always returns `true`. -/
def cmd_provider (d : Delegate) (parts : List String) (ctx : Ctx) : HandlerResult :=
  match d ((parts.drop 1).map CtxVal.str) (ensureMM ctx) with
  | .ok ctx2 =>
      { ret := true
        ctx := ctx2
        output :=
          if (pyGet ctx2 "provider" ≠ pyGet (ensureMM ctx) "provider" ∨
              pyGet ctx2 "model" ≠ pyGet (ensureMM ctx) "model") ∧
             truthy (pyGet ctx2 "provider") = true then
            [providerChangedLine (pyGet ctx2 "provider") (pyGet ctx2 "model"),
             providerDimLine]
          else []
        calls := [⟨(parts.drop 1).map CtxVal.str, ensureMM ctx⟩] }
  | .raised msg ctx2 =>
      { ret := true
        ctx := ctx2
        output :=
          providerFailLine msg ::
            (if strHasSubB msg "available_models" = true ∨
                strHasSubB msg "models" = true then
              providerHintLines ctx2
            else [])
        calls := [⟨(parts.drop 1).map CtxVal.str, ensureMM ctx⟩] }

/-- Error line of `cmd_providers` when the delegate raises. -/
def providersFailLine (msg : String) : String :=
  "[red]Providers command failed:[/red] " ++ msg

/-- The argument list `cmd_providers` forwards: `["list"]` when nothing
follows the command word, the remaining tokens verbatim otherwise. -/
def providersArgs (parts : List String) : List CtxVal :=
  if parts.length ≤ 1 then [.str "list"]
  else (parts.drop 1).map CtxVal.str

/-- Embedding of `cmd_providers`: lazily create `model_manager`, forward
`providersArgs parts` to the delegate; a raised exception becomes a red
error line.  Always returns `true`. -/
def cmd_providers (d : Delegate) (parts : List String) (ctx : Ctx) : HandlerResult :=
  match d (providersArgs parts) (ensureMM ctx) with
  | .ok ctx2 =>
      { ret := true, ctx := ctx2, output := [], calls := [⟨providersArgs parts, ensureMM ctx⟩] }
  | .raised msg ctx2 =>
      { ret := true, ctx := ctx2, output := [providersFailLine msg]
        calls := [⟨providersArgs parts, ensureMM ctx⟩] }

/-- First line of `cmd_model` with no arguments. -/
def currentModelLine (cp cm : CtxVal) : String :=
  "[cyan]Current model:[/cyan] " ++ showVal cp ++ "/" ++ showVal cm

/-- Header before the model list in `cmd_model`. -/
def availHeaderLine (cp : CtxVal) : String :=
  "[cyan]Available models for " ++ showVal cp ++ ":[/cyan]"

/-- One listed model, with the arrow marker exactly on the current one. -/
def modelEntryLine (cm : CtxVal) (m : String) : String :=
  "  " ++ (if CtxVal.str m = cm then "→ " else "   ") ++ m

/-- Overflow line when more than 10 models exist. -/
def moreModelsLine (n : Nat) : String :=
  "  ... and " ++ toString (n - 10) ++ " more"

/-- Warning line when fetching the model list fails. -/
def modelsWarnLine (e : String) : String :=
  "[yellow]Could not list models:[/yellow] " ++ e

/-- Error line of `cmd_model` when the delegate raises. -/
def modelFailLine (msg : String) : String :=
  "[red]Model switch failed:[/red] " ++ msg

/-- Hint line of `cmd_model` suggesting the `/provider` equivalent. -/
def modelTryLine (cp : CtxVal) (m : String) : String :=
  "[yellow]Try:[/yellow] /provider " ++ showVal cp ++ " " ++ m

/-- The model listing `cmd_model` prints after the current-model line:
nothing when the fetched list is empty, otherwise a header, the first 10
entries (arrow on the current model) and, past 10, an overflow count; a
fetch failure yields only a yellow warning line. -/
def modelListing (gm : GetModels) (cp cm : CtxVal) : List String :=
  match gm cp with
  | .ok models =>
      if models.isEmpty then []
      else
        availHeaderLine cp :: (models.take 10).map (modelEntryLine cm) ++
          (if models.length > 10 then [moreModelsLine models.length] else [])
  | .error e => [modelsWarnLine e]

/-- Embedding of `cmd_model`: with fewer than two tokens it prints the
current provider/model (each defaulting to `"unknown"`) and the model
listing fetched from a fresh `ModelManager`, touching neither the context
nor the delegate; with a second token it forwards
`[ctx.get("provider", "openai"), parts[1]]` to the delegate, turning a
raised exception into a red error line plus a hint.  Always returns
`true`. -/
def cmd_model (d : Delegate) (gm : GetModels) (parts : List String) (ctx : Ctx) :
    HandlerResult :=
  if parts.length < 2 then
    { ret := true
      ctx := ctx
      output :=
        currentModelLine (pyGetD ctx "provider" (.str "unknown"))
            (pyGetD ctx "model" (.str "unknown")) ::
          modelListing gm (pyGetD ctx "provider" (.str "unknown"))
            (pyGetD ctx "model" (.str "unknown"))
      calls := [] }
  else
    match d [pyGetD ctx "provider" (.str "openai"), .str (parts.getD 1 "")] ctx with
    | .ok ctx2 =>
        { ret := true, ctx := ctx2, output := []
          calls := [⟨[pyGetD ctx "provider" (.str "openai"), .str (parts.getD 1 "")], ctx⟩] }
    | .raised msg ctx2 =>
        { ret := true
          ctx := ctx2
          output := [modelFailLine msg,
            modelTryLine (pyGetD ctx "provider" (.str "openai")) (parts.getD 1 "")]
          calls := [⟨[pyGetD ctx "provider" (.str "openai"), .str (parts.getD 1 "")], ctx⟩] }

/-! ## Helper lemmas -/

theorem subAt_self_append (l t : List Char) : subAt l (l ++ t) = true := by
  induction l with
  | nil => rfl
  | cons a as ih => simp [subAt, ih]

theorem subSearch_nil (l : List Char) : subSearch [] l = true := by
  cases l <;> simp [subSearch, subAt]

theorem subSearch_of_append (pre pat post : List Char) :
    subSearch pat (pre ++ pat ++ post) = true := by
  induction pre with
  | nil =>
    cases pat with
    | nil => exact subSearch_nil _
    | cons a as =>
      simp only [List.nil_append, List.cons_append, subSearch, Bool.or_eq_true]
      exact Or.inl (by simpa using subAt_self_append (a :: as) post)
  | cons b bs ih =>
    simp only [List.cons_append, subSearch, Bool.or_eq_true]
    exact Or.inr (by simpa [List.append_assoc] using ih)

theorem strHasSubB_append (pre pat post : String) :
    strHasSubB (pre ++ pat ++ post) pat = true := by
  have h : (pre ++ pat ++ post).toList = pre.toList ++ pat.toList ++ post.toList := by
    simp [String.toList, String.data_append]
  rw [strHasSubB, h]
  exact subSearch_of_append _ _ _

theorem jlookup_ne_nil {ef : List (String × JVal)} {k : String} {v : JVal}
    (h : jlookup ef k = some v) : ef ≠ [] := by
  intro hnil
  subst hnil
  simp [jlookup] at h

/-! ## Claim theorems: configuration loader -/

/-- C1: for every config file whose JSON contains an entry
`mcpServers[server_name]` with a string `command` field (and well-typed
optional fields), `load_server_config` returns a parameter record whose
command, args and env equal that entry's fields, with `args` defaulting to
the empty sequence and `env` defaulting to absent when omitted (the
defaults are the `decodeStrList`/`envDecode` images of the Python defaults
`[]` and `None`). -/
theorem c1_load_success (config_path server_name c : String)
    (fields sf ef : List (String × JVal)) (as : List String)
    (env : Option (List (String × String)))
    (hm : jlookup fields "mcpServers" = some (.obj sf))
    (hs : jlookup sf server_name = some (.obj ef))
    (hc : jlookup ef "command" = some (.str c))
    (ha : decodeStrList ((jlookup ef "args").getD (.arr [])) = some as)
    (he : envDecode ((jlookup ef "env").getD .null) = some env) :
    load_server_config config_path (.parsed (.obj fields)) server_name =
      .ok ⟨c, as, env⟩ := by
  have hne : ef ≠ [] := jlookup_ne_nil hc
  cases ef with
  | nil => exact absurd rfl hne
  | cons p rest =>
    simp [load_server_config, hm, hs, jFalsy, mkStdioParameters, hc, ha, he]

/-- Witness for C1: the spec's example config, with full fields, and a
second entry exercising both defaults. -/
theorem c1_load_success_witness :
    load_server_config "server_config.json"
      (.parsed (.obj [("mcpServers", .obj
        [("foo", .obj [("command", .str "x"), ("args", .arr [.str "a"]),
                       ("env", .obj [("K", .str "V")])]),
         ("bare", .obj [("command", .str "y")])])]))
      "foo" = .ok ⟨"x", ["a"], some [("K", "V")]⟩ ∧
    load_server_config "server_config.json"
      (.parsed (.obj [("mcpServers", .obj
        [("foo", .obj [("command", .str "x"), ("args", .arr [.str "a"]),
                       ("env", .obj [("K", .str "V")])]),
         ("bare", .obj [("command", .str "y")])])]))
      "bare" = .ok ⟨"y", [], none⟩ :=
  ⟨c1_load_success "server_config.json" "foo" "x" _ _ _ ["a"] (some [("K", "V")])
      rfl rfl rfl rfl rfl,
   c1_load_success "server_config.json" "bare" "y" _ _ _ [] none
      rfl rfl rfl rfl rfl⟩

/-- C3: for every config whose top-level `mcpServers` object lacks the
requested server name (or maps it to a Python-falsy value),
`load_server_config` fails with the lookup-failure `ValueError`, and its
message contains the requested server name. -/
theorem c3_server_not_found (config_path server_name : String)
    (fields sf : List (String × JVal))
    (hm : (jlookup fields "mcpServers").getD (.obj []) = .obj sf)
    (hf : jFalsy ((jlookup sf server_name).getD .null) = true) :
    load_server_config config_path (.parsed (.obj fields)) server_name =
      .error (.valueError (serverNotFoundMsg server_name)) ∧
    strHasSubB (serverNotFoundMsg server_name) server_name = true := by
  constructor
  · simp [load_server_config, hm, hf]
  · exact strHasSubB_append "Server \x27" server_name
      "\x27 not found in configuration file."

/-- Witness for C3: a config whose `mcpServers` is empty, queried for
`"foo"`. -/
theorem c3_server_not_found_witness :
    load_server_config "server_config.json"
      (.parsed (.obj [("mcpServers", .obj [])])) "foo" =
      .error (.valueError (serverNotFoundMsg "foo")) ∧
    strHasSubB (serverNotFoundMsg "foo") "foo" = true :=
  c3_server_not_found "server_config.json" "foo" [("mcpServers", .obj [])] [] rfl rfl

/-- C8: for every config file that exists but is not valid JSON,
`load_server_config` fails with the rewrapped JSON-decode error, keeping
the original parse error's document and position unchanged. -/
theorem c8_invalid_json (config_path server_name msg doc : String) (pos : Nat) :
    load_server_config config_path (.invalidJson msg doc pos) server_name =
      .error (.jsonDecode ("Invalid JSON in configuration file: " ++ msg) doc pos) :=
  rfl

/-! ## Claim theorems: chat command handlers -/

theorem ctxFind_set_ne (ctx : Ctx) (kset kget : String) (v : CtxVal)
    (h : kset ≠ kget) :
    ctxFind (ctxSet ctx kset v) kget = ctxFind ctx kget := by
  induction ctx with
  | nil => simp [ctxSet, ctxFind, h]
  | cons p rest ih =>
    cases p with
    | mk pk pv =>
      by_cases hpk : pk = kset
      · subst hpk
        simp [ctxSet, ctxFind, h]
      · simp [ctxSet, ctxFind, hpk, ih]

theorem ctxFind_set_self (ctx : Ctx) (k : String) (v : CtxVal) :
    ctxFind (ctxSet ctx k v) k = some v := by
  induction ctx with
  | nil => simp [ctxSet, ctxFind]
  | cons p rest ih =>
    cases p with
    | mk pk pv =>
      by_cases hpk : pk = k
      · subst hpk
        simp [ctxSet, ctxFind]
      · simp [ctxSet, ctxFind, hpk, ih]

theorem pyGet_ensureMM (ctx : Ctx) (k : String) (h : k ≠ "model_manager") :
    pyGet (ensureMM ctx) k = pyGet ctx k := by
  unfold ensureMM
  by_cases hc : ctxContains ctx "model_manager" = true
  · simp [hc]
  · simp [hc, pyGet, ctxFind_set_ne ctx "model_manager" k .mm (Ne.symm h)]

theorem ctxContains_ensureMM (ctx : Ctx) :
    ctxContains (ensureMM ctx) "model_manager" = true := by
  unfold ensureMM
  by_cases hc : ctxContains ctx "model_manager" = true
  · rw [if_pos hc]
    exact hc
  · rw [if_neg hc]
    simp [ctxContains, ctxFind_set_self]

/-- C2: for every token list and context, each of `cmd_provider`,
`cmd_providers` and `cmd_model` returns `true`, and every exception raised
by the delegated action (or by model enumeration) is caught and converted
into console output rather than propagating. -/
theorem c2_handlers_never_raise (d : Delegate) (gm : GetModels)
    (parts : List String) (ctx : Ctx) :
    (cmd_provider d parts ctx).ret = true ∧
    (cmd_providers d parts ctx).ret = true ∧
    (cmd_model d gm parts ctx).ret = true ∧
    (∀ msg ctx2,
        d ((parts.drop 1).map CtxVal.str) (ensureMM ctx) = .raised msg ctx2 →
        providerFailLine msg ∈ (cmd_provider d parts ctx).output) ∧
    (∀ msg ctx2, d (providersArgs parts) (ensureMM ctx) = .raised msg ctx2 →
        providersFailLine msg ∈ (cmd_providers d parts ctx).output) ∧
    (∀ e, parts.length < 2 →
        gm (pyGetD ctx "provider" (.str "unknown")) = .error e →
        modelsWarnLine e ∈ (cmd_model d gm parts ctx).output) ∧
    (∀ msg ctx2, ¬parts.length < 2 →
        d [pyGetD ctx "provider" (.str "openai"), .str (parts.getD 1 "")] ctx =
          .raised msg ctx2 →
        modelFailLine msg ∈ (cmd_model d gm parts ctx).output) := by
  refine ⟨?_, ?_, ?_, ?_, ?_, ?_, ?_⟩
  · simp only [cmd_provider]
    cases d ((parts.drop 1).map CtxVal.str) (ensureMM ctx) <;> rfl
  · simp only [cmd_providers]
    cases d (providersArgs parts) (ensureMM ctx) <;> rfl
  · by_cases hp : parts.length < 2
    · simp only [cmd_model]
      rw [if_pos hp]
    · simp only [cmd_model]
      rw [if_neg hp]
      cases d [pyGetD ctx "provider" (.str "openai"), .str (parts.getD 1 "")] ctx <;> rfl
  · intro msg ctx2 h
    simp only [cmd_provider]
    rw [h]
    simp
  · intro msg ctx2 h
    simp only [cmd_providers]
    rw [h]
    simp
  · intro e hp h
    simp only [cmd_model]
    rw [if_pos hp]
    simp only [modelListing]
    rw [h]
    simp
  · intro msg ctx2 hp h
    simp only [cmd_model]
    rw [if_neg hp, h]
    simp

/-- Witness for C2: a delegate and a model enumerator that always raise;
every failure surfaces as a console line and never escapes the handler. -/
theorem c2_handlers_never_raise_witness :
    providerFailLine "boom" ∈
      (cmd_provider (fun _ c => .raised "boom" c) ["provider", "x"] []).output ∧
    providersFailLine "boom" ∈
      (cmd_providers (fun _ c => .raised "boom" c) ["providers"] []).output ∧
    modelsWarnLine "nope" ∈
      (cmd_model (fun _ c => .raised "boom" c) (fun _ => .error "nope")
        ["model"] []).output ∧
    modelFailLine "boom" ∈
      (cmd_model (fun _ c => .raised "boom" c) (fun _ => .error "nope")
        ["model", "gpt-x"] []).output :=
  ⟨(c2_handlers_never_raise (fun _ c => .raised "boom" c) (fun _ => .error "nope")
      ["provider", "x"] []).2.2.2.1 "boom" (ensureMM []) rfl,
   (c2_handlers_never_raise (fun _ c => .raised "boom" c) (fun _ => .error "nope")
      ["providers"] []).2.2.2.2.1 "boom" (ensureMM []) rfl,
   (c2_handlers_never_raise (fun _ c => .raised "boom" c) (fun _ => .error "nope")
      ["model"] []).2.2.2.2.2.1 "nope" (by decide) rfl,
   (c2_handlers_never_raise (fun _ c => .raised "boom" c) (fun _ => .error "nope")
      ["model", "gpt-x"] []).2.2.2.2.2.2 "boom" [] (by decide) rfl⟩

/-- C4: `cmd_providers` calls the delegate with exactly `["list"]` when no
token follows the command word, and with exactly the remaining tokens, in
order and unmodified, otherwise. -/
theorem c4_providers_default_list (d : Delegate) (parts : List String) (ctx : Ctx) :
    (parts.length ≤ 1 →
        (cmd_providers d parts ctx).calls.map DelegateCall.args =
          [[CtxVal.str "list"]]) ∧
    (∀ cmdw rest, parts = cmdw :: rest → rest ≠ [] →
        (cmd_providers d parts ctx).calls.map DelegateCall.args =
          [rest.map CtxVal.str]) := by
  have hcalls : (cmd_providers d parts ctx).calls.map DelegateCall.args =
      [providersArgs parts] := by
    simp only [cmd_providers]
    cases d (providersArgs parts) (ensureMM ctx) <;> rfl
  constructor
  · intro hlen
    rw [hcalls]
    unfold providersArgs
    rw [if_pos hlen]
  · intro cmdw rest hparts hne
    subst hparts
    rw [hcalls]
    have hlen : ¬(cmdw :: rest).length ≤ 1 := by
      cases rest with
      | nil => exact absurd rfl hne
      | cons a as =>
        intro hcon
        simp only [List.length_cons] at hcon
        omega
    unfold providersArgs
    rw [if_neg hlen]
    rfl

/-- Witness for C4: no extra token yields `["list"]`; extra tokens are
forwarded verbatim. -/
theorem c4_providers_default_list_witness :
    (cmd_providers (fun _ c => .ok c) ["providers"] []).calls.map
      DelegateCall.args = [[CtxVal.str "list"]] ∧
    (cmd_providers (fun _ c => .ok c) ["providers", "diagnostic", "v"] []).calls.map
      DelegateCall.args = [[CtxVal.str "diagnostic", CtxVal.str "v"]] :=
  ⟨(c4_providers_default_list (fun _ c => .ok c) ["providers"] []).1 (by decide),
   by
    simpa using (c4_providers_default_list (fun _ c => .ok c)
      ["providers", "diagnostic", "v"] []).2 "providers" ["diagnostic", "v"]
      rfl (by decide)⟩

/-- C5: with at least one token after the command word, `cmd_model` calls
the delegate with exactly `[current_provider, model_name]`, where
`model_name` is the second token and `current_provider` is the context's
`provider` value, or the literal `"openai"` when that key is absent. -/
theorem c5_model_switch_args (d : Delegate) (gm : GetModels) (ctx : Ctx)
    (cmdw mname : String) (rest : List String) :
    (∀ p, ctxFind ctx "provider" = some p →
        (cmd_model d gm (cmdw :: mname :: rest) ctx).calls.map DelegateCall.args =
          [[p, CtxVal.str mname]]) ∧
    (ctxFind ctx "provider" = none →
        (cmd_model d gm (cmdw :: mname :: rest) ctx).calls.map DelegateCall.args =
          [[CtxVal.str "openai", CtxVal.str mname]]) := by
  have hlen : ¬(cmdw :: mname :: rest).length < 2 := by
    intro hcon
    simp only [List.length_cons] at hcon
    omega
  have hcalls : (cmd_model d gm (cmdw :: mname :: rest) ctx).calls.map
      DelegateCall.args =
      [[pyGetD ctx "provider" (.str "openai"), CtxVal.str mname]] := by
    simp only [cmd_model]
    rw [if_neg hlen]
    cases d [pyGetD ctx "provider" (.str "openai"),
        .str ((cmdw :: mname :: rest).getD 1 "")] ctx <;> rfl
  constructor
  · intro p hp
    rw [hcalls]
    simp [pyGetD, hp]
  · intro hp
    rw [hcalls]
    simp [pyGetD, hp]

/-- Witness for C5: the spec's example — `/model gpt-x` with context
provider `"anthropic"` calls the delegate with
`["anthropic", "gpt-x"]`; with no provider in context it uses
`"openai"`. -/
theorem c5_model_switch_args_witness :
    (cmd_model (fun _ c => .ok c) (fun _ => .ok []) ["model", "gpt-x"]
        [("provider", CtxVal.str "anthropic")]).calls.map DelegateCall.args =
      [[CtxVal.str "anthropic", CtxVal.str "gpt-x"]] ∧
    (cmd_model (fun _ c => .ok c) (fun _ => .ok []) ["model", "gpt-x"]
        []).calls.map DelegateCall.args =
      [[CtxVal.str "openai", CtxVal.str "gpt-x"]] :=
  ⟨(c5_model_switch_args (fun _ c => .ok c) (fun _ => .ok [])
      [("provider", CtxVal.str "anthropic")] "model" "gpt-x" []).1
      (CtxVal.str "anthropic") rfl,
   (c5_model_switch_args (fun _ c => .ok c) (fun _ => .ok [])
      [] "model" "gpt-x" []).2 rfl⟩

/-- C6: after a non-raising run of `cmd_provider`, the confirmation pair
naming the new provider/model is printed if and only if the context's
`provider` or `model` value after the delegate call differs from its
pre-call snapshot and the post-call provider is truthy. -/
theorem c6_provider_confirmation (d : Delegate) (parts : List String)
    (ctx ctx2 : Ctx)
    (h : d ((parts.drop 1).map CtxVal.str) (ensureMM ctx) = .ok ctx2) :
    (providerChangedLine (pyGet ctx2 "provider") (pyGet ctx2 "model") ∈
        (cmd_provider d parts ctx).output ∧
      providerDimLine ∈ (cmd_provider d parts ctx).output) ↔
      ((pyGet ctx2 "provider" ≠ pyGet ctx "provider" ∨
        pyGet ctx2 "model" ≠ pyGet ctx "model") ∧
       truthy (pyGet ctx2 "provider") = true) := by
  have hprov : pyGet (ensureMM ctx) "provider" = pyGet ctx "provider" :=
    pyGet_ensureMM ctx "provider" (by decide)
  have hmod : pyGet (ensureMM ctx) "model" = pyGet ctx "model" :=
    pyGet_ensureMM ctx "model" (by decide)
  simp only [cmd_provider]
  rw [h]
  by_cases hc : (pyGet ctx2 "provider" ≠ pyGet ctx "provider" ∨
      pyGet ctx2 "model" ≠ pyGet ctx "model") ∧
      truthy (pyGet ctx2 "provider") = true
  · simp [hprov, hmod, hc]
  · simp [hprov, hmod, hc]

/-- Witness for C6: a delegate that switches to `p1/m1` triggers the
confirmation; the identity delegate (nothing changed) does not. -/
theorem c6_provider_confirmation_witness :
    providerChangedLine (CtxVal.str "p1") (CtxVal.str "m1") ∈
      (cmd_provider
        (fun _ c => .ok (ctxSet (ctxSet c "provider" (.str "p1")) "model" (.str "m1")))
        ["provider", "p1", "m1"] []).output ∧
    ¬(providerChangedLine
          (pyGet (ensureMM [("provider", CtxVal.str "p"), ("model", CtxVal.str "m")])
            "provider")
          (pyGet (ensureMM [("provider", CtxVal.str "p"), ("model", CtxVal.str "m")])
            "model") ∈
        (cmd_provider (fun _ c => .ok c) ["provider"]
          [("provider", CtxVal.str "p"), ("model", CtxVal.str "m")]).output ∧
      providerDimLine ∈
        (cmd_provider (fun _ c => .ok c) ["provider"]
          [("provider", CtxVal.str "p"), ("model", CtxVal.str "m")]).output) :=
  ⟨((c6_provider_confirmation
      (fun _ c => .ok (ctxSet (ctxSet c "provider" (.str "p1")) "model" (.str "m1")))
      ["provider", "p1", "m1"] []
      [("model_manager", CtxVal.mm), ("provider", CtxVal.str "p1"),
       ("model", CtxVal.str "m1")] rfl).mpr (by decide)).1,
   fun hboth =>
    absurd ((c6_provider_confirmation (fun _ c => .ok c) ["provider"]
        [("provider", CtxVal.str "p"), ("model", CtxVal.str "m")]
        (ensureMM [("provider", CtxVal.str "p"), ("model", CtxVal.str "m")])
        rfl).mp hboth)
      (by decide)⟩

/-- C7: with no token after the command word, `cmd_model` returns `true`,
prints the current provider/model (each defaulting to `"unknown"`), then
the model listing: on a fetch failure exactly a yellow warning line, on a
non-empty fetched list a header, the first 10 entries and — past 10 — an
overflow count; the arrow prefix appears exactly on entries equal to the
current model. -/
theorem c7_model_show_current (d : Delegate) (gm : GetModels)
    (parts : List String) (ctx : Ctx) (hp : parts.length < 2) :
    (cmd_model d gm parts ctx).ret = true ∧
    (cmd_model d gm parts ctx).output =
      currentModelLine (pyGetD ctx "provider" (.str "unknown"))
          (pyGetD ctx "model" (.str "unknown")) ::
        modelListing gm (pyGetD ctx "provider" (.str "unknown"))
          (pyGetD ctx "model" (.str "unknown")) ∧
    (∀ e, gm (pyGetD ctx "provider" (.str "unknown")) = .error e →
        modelListing gm (pyGetD ctx "provider" (.str "unknown"))
          (pyGetD ctx "model" (.str "unknown")) = [modelsWarnLine e]) ∧
    (∀ models, gm (pyGetD ctx "provider" (.str "unknown")) = .ok models →
        models ≠ [] →
        modelListing gm (pyGetD ctx "provider" (.str "unknown"))
            (pyGetD ctx "model" (.str "unknown")) =
          availHeaderLine (pyGetD ctx "provider" (.str "unknown")) ::
            (models.take 10).map
              (modelEntryLine (pyGetD ctx "model" (.str "unknown"))) ++
            (if models.length > 10 then [moreModelsLine models.length] else [])) ∧
    (∀ m, modelEntryLine (pyGetD ctx "model" (.str "unknown")) m =
        "  " ++ "→ " ++ m ↔
        CtxVal.str m = pyGetD ctx "model" (.str "unknown")) := by
  refine ⟨?_, ?_, ?_, ?_, ?_⟩
  · simp only [cmd_model]
    rw [if_pos hp]
  · simp only [cmd_model]
    rw [if_pos hp]
  · intro e he
    simp only [modelListing]
    rw [he]
  · intro models hm hne
    simp only [modelListing]
    rw [hm]
    cases models with
    | nil => exact absurd rfl hne
    | cons a as => rfl
  · intro m
    constructor
    · intro heq
      by_contra hne
      rw [modelEntryLine, if_neg hne] at heq
      have hl := congrArg String.length heq
      have e1 : ("  " ++ "   " ++ m).length = 5 + m.length := by
        show ("  " ++ "   " ++ m).data.length = 5 + m.data.length
        simp [String.data_append]
        omega
      have e2 : ("  " ++ "→ " ++ m).length = 4 + m.length := by
        show ("  " ++ "→ " ++ m).data.length = 4 + m.data.length
        simp [String.data_append]
        omega
      rw [e1, e2] at hl
      omega
    · intro heq
      rw [modelEntryLine, if_pos heq]

/-- Witness for C7: twelve models for provider `"p"` with current model
`"m3"`: ten entries plus an overflow line; the arrow lands on `"m3"`; a
failing fetch yields exactly the warning line. -/
theorem c7_model_show_current_witness :
    (cmd_model (fun _ c => .ok c)
        (fun _ => .ok ["m1", "m2", "m3", "m4", "m5", "m6", "m7", "m8", "m9",
          "m10", "m11", "m12"])
        ["model"] [("provider", CtxVal.str "p"), ("model", CtxVal.str "m3")]).ret =
      true ∧
    modelListing
        (fun _ => .ok ["m1", "m2", "m3", "m4", "m5", "m6", "m7", "m8", "m9",
          "m10", "m11", "m12"])
        (CtxVal.str "p") (CtxVal.str "m3") =
      availHeaderLine (CtxVal.str "p") ::
        ((["m1", "m2", "m3", "m4", "m5", "m6", "m7", "m8", "m9",
           "m10", "m11", "m12"].take 10).map (modelEntryLine (CtxVal.str "m3")) ++
          (if (["m1", "m2", "m3", "m4", "m5", "m6", "m7", "m8", "m9",
             "m10", "m11", "m12"] : List String).length > 10 then
            [moreModelsLine (["m1", "m2", "m3", "m4", "m5", "m6", "m7", "m8",
              "m9", "m10", "m11", "m12"] : List String).length]
          else [])) ∧
    modelEntryLine (CtxVal.str "m3") "m3" = "  " ++ "→ " ++ "m3" ∧
    modelListing (fun _ => .error "offline") (CtxVal.str "p") (CtxVal.str "m3") =
      [modelsWarnLine "offline"] :=
  ⟨(c7_model_show_current (fun _ c => .ok c)
      (fun _ => .ok ["m1", "m2", "m3", "m4", "m5", "m6", "m7", "m8", "m9",
        "m10", "m11", "m12"])
      ["model"] [("provider", CtxVal.str "p"), ("model", CtxVal.str "m3")]
      (by decide)).1,
   by
    have h := (c7_model_show_current (fun _ c => .ok c)
      (fun _ => .ok ["m1", "m2", "m3", "m4", "m5", "m6", "m7", "m8", "m9",
        "m10", "m11", "m12"])
      ["model"] [("provider", CtxVal.str "p"), ("model", CtxVal.str "m3")]
      (by decide)).2.2.2.1
      ["m1", "m2", "m3", "m4", "m5", "m6", "m7", "m8", "m9", "m10", "m11", "m12"]
      rfl (List.cons_ne_nil _ _)
    simpa using h,
   ((c7_model_show_current (fun _ c => .ok c)
      (fun _ => .ok ["m1", "m2", "m3", "m4", "m5", "m6", "m7", "m8", "m9",
        "m10", "m11", "m12"])
      ["model"] [("provider", CtxVal.str "p"), ("model", CtxVal.str "m3")]
      (by decide)).2.2.2.2 "m3").mpr rfl,
   (c7_model_show_current (fun _ c => .ok c) (fun _ => .error "offline")
      ["model"] [("provider", CtxVal.str "p"), ("model", CtxVal.str "m3")]
      (by decide)).2.2.1 "offline" rfl⟩

theorem ensureMM_idem (ctx : Ctx) : ensureMM (ensureMM ctx) = ensureMM ctx := by
  by_cases hc : ctxContains ctx "model_manager" = true
  · simp only [ensureMM]
    rw [if_pos hc, if_pos hc]
  · have h2 : ctxContains (ctxSet ctx "model_manager" CtxVal.mm)
        "model_manager" = true := by
      simp [ctxContains, ctxFind_set_self]
    simp only [ensureMM]
    rw [if_neg hc, if_pos h2]

/-- C9: `cmd_provider` and `cmd_providers` both hand the delegate the
context produced by `ensureMM`, which guarantees `model_manager` exists,
leaves a context that already has the key untouched, creates the default
handle exactly when the key is absent, and is idempotent (so within a
session the handle is created at most once unless externally removed). -/
theorem c9_model_manager_lazy (d : Delegate) (parts : List String) (ctx : Ctx) :
    (cmd_provider d parts ctx).calls.map DelegateCall.ctx = [ensureMM ctx] ∧
    (cmd_providers d parts ctx).calls.map DelegateCall.ctx = [ensureMM ctx] ∧
    ctxContains (ensureMM ctx) "model_manager" = true ∧
    (ctxContains ctx "model_manager" = true → ensureMM ctx = ctx) ∧
    (ctxContains ctx "model_manager" = false →
        ensureMM ctx = ctxSet ctx "model_manager" CtxVal.mm) ∧
    ensureMM (ensureMM ctx) = ensureMM ctx := by
  refine ⟨?_, ?_, ctxContains_ensureMM ctx, ?_, ?_, ensureMM_idem ctx⟩
  · simp only [cmd_provider]
    cases d ((parts.drop 1).map CtxVal.str) (ensureMM ctx) <;> rfl
  · simp only [cmd_providers]
    cases d (providersArgs parts) (ensureMM ctx) <;> rfl
  · intro hc
    unfold ensureMM
    rw [if_pos hc]
  · intro hc
    unfold ensureMM
    rw [if_neg (by simp [hc])]

/-- Witness for C9: a context already holding a `model_manager` is left
unchanged; an empty context gets the default handle. -/
theorem c9_model_manager_lazy_witness :
    ensureMM [("model_manager", CtxVal.obj 7)] = [("model_manager", CtxVal.obj 7)] ∧
    ensureMM [] = ctxSet [] "model_manager" CtxVal.mm :=
  ⟨(c9_model_manager_lazy (fun _ c => .ok c) []
      [("model_manager", CtxVal.obj 7)]).2.2.2.1 rfl,
   (c9_model_manager_lazy (fun _ c => .ok c) [] []).2.2.2.2.1 rfl⟩

/-- C10: `cmd_model` never touches `model_manager`: with no token after
the command word it makes no delegate call and leaves the whole context
unchanged; with a token it passes the delegate the context exactly as
received (no lazy creation) and its final context is exactly what the
delegate left behind. -/
theorem c10_model_frame (d : Delegate) (gm : GetModels) (parts : List String)
    (ctx : Ctx) :
    (parts.length < 2 →
        (cmd_model d gm parts ctx).ctx = ctx ∧
        (cmd_model d gm parts ctx).calls = []) ∧
    (¬parts.length < 2 →
        (cmd_model d gm parts ctx).calls.map DelegateCall.ctx = [ctx]) ∧
    (∀ ctx2, ¬parts.length < 2 →
        d [pyGetD ctx "provider" (.str "openai"), .str (parts.getD 1 "")] ctx =
          .ok ctx2 →
        (cmd_model d gm parts ctx).ctx = ctx2) ∧
    (∀ msg ctx2, ¬parts.length < 2 →
        d [pyGetD ctx "provider" (.str "openai"), .str (parts.getD 1 "")] ctx =
          .raised msg ctx2 →
        (cmd_model d gm parts ctx).ctx = ctx2) := by
  refine ⟨?_, ?_, ?_, ?_⟩
  · intro hp
    constructor <;> (simp only [cmd_model]; rw [if_pos hp])
  · intro hp
    simp only [cmd_model]
    rw [if_neg hp]
    cases d [pyGetD ctx "provider" (.str "openai"), .str (parts.getD 1 "")] ctx <;>
      rfl
  · intro ctx2 hp h
    simp only [cmd_model]
    rw [if_neg hp, h]
  · intro msg ctx2 hp h
    simp only [cmd_model]
    rw [if_neg hp, h]

/-- Witness for C10: `/model` with no argument leaves the context as it
was; `/model x` yields exactly the context the delegate produced. -/
theorem c10_model_frame_witness :
    (cmd_model (fun _ c => .ok c) (fun _ => .ok ["a"]) ["model"]
        [("provider", CtxVal.str "p")]).ctx = [("provider", CtxVal.str "p")] ∧
    (cmd_model (fun _ c => .ok (ctxSet c "model" (.str "x"))) (fun _ => .ok [])
        ["model", "x"] []).ctx = ctxSet [] "model" (CtxVal.str "x") :=
  ⟨((c10_model_frame (fun _ c => .ok c) (fun _ => .ok ["a"]) ["model"]
      [("provider", CtxVal.str "p")]).1 (by decide)).1,
   (c10_model_frame (fun _ c => .ok (ctxSet c "model" (.str "x")))
      (fun _ => .ok []) ["model", "x"] []).2.2.1
      (ctxSet [] "model" (CtxVal.str "x")) (by decide) rfl⟩

end McpCli
